import Mathlib

/-!
Verification of the AI-Driven Network Forecaster repository.

The repository is a React/TypeScript dashboard over a two-table SQL schema.
We give a shallow embedding of the pieces the specification talks about:

* `NetStore`: the metrics/predictions store.  The repository contains only the
  SQL schema (`network_metrics` and `predictions` tables with their
  `UNIQUE(timestamp, device_id, metric_name)` constraint and the descending
  time index); the store operations themselves (`insert_sample`,
  `query_samples`, `list_devices`, `insert_prediction`, `query_predictions`)
  live in an unseen backend and are modelled from the spec.
* `ApiService`: the frontend API client (`src/frontend/src/services/api.ts`),
  including its catch-handler fallbacks and the mock-metrics generator.
* `Dashboard`: the dashboard component (device selection, metric grouping,
  WebSocket-triggered re-fetch).
* `AppMain`: the `App.tsx` component's bounded live window.

Timestamps are modelled as `Int` milliseconds since the epoch (JavaScript
`Date.getTime`; `toISOString` is injective on these values, so string
timestamps compare exactly like their `Int` counterparts).  Decimal values
(`DECIMAL(15,2)`, JS `number`s whose exact value the claims never inspect)
are modelled as `Rat`.  JavaScript `Array.prototype.sort` with a numeric
comparator is modelled by `List.insertionSort` with the corresponding
relation: the claims concern only the ordering and permutation behaviour of
the sort, which any comparison sort shares.
-/

namespace NetStore

/-- A row of the `network_metrics` table (src/unnamed/part_000):
`timestamp TIMESTAMPTZ NOT NULL`, `device_id VARCHAR(100) NOT NULL`,
`metric_name VARCHAR(100) NOT NULL`, `value DECIMAL(15,2) NOT NULL`,
`unit VARCHAR(20)` (nullable).  The surrogate `id SERIAL` column plays no
role in any claim and is omitted. -/
structure MetricSample where
  timestamp : Int
  device_id : String
  metric_name : String
  value : Rat
  unit : Option String
deriving DecidableEq, Repr

/-- The column triple constrained by `UNIQUE(timestamp, device_id, metric_name)`
in the `network_metrics` table. -/
def sampleKey (s : MetricSample) : Int × String × String :=
  (s.timestamp, s.device_id, s.metric_name)

/-- Outcome of a sample insert: success, or the conflict raised by the
`UNIQUE(timestamp, device_id, metric_name)` constraint. -/
inductive InsertOutcome where
  | ok
  | conflictError
deriving DecidableEq, Repr

/-- Modelled from the spec: `insert_sample(sample)` "fails with `ConflictError`
if (`timestamp`,`device_id`,`metric_name`) already exists; otherwise persists
and succeeds", backed by the `UNIQUE` constraint of src/unnamed/part_000.
The result is the (possibly unchanged) store together with the outcome. -/
def insert_sample (store : List MetricSample) (s : MetricSample) :
    List MetricSample × InsertOutcome :=
  if store.any (fun t => sampleKey t == sampleKey s) then
    (store, .conflictError)
  else
    (store ++ [s], .ok)

/-- The store built by a sequence of `insert_sample` calls starting from the
empty store (conflicting inserts are rejected and leave the store unchanged). -/
def insertAll (ss : List MetricSample) : List MetricSample :=
  ss.foldl (fun st s => (insert_sample st s).1) []

/-- The uniqueness invariant of the `network_metrics` table: at most one
stored sample per (`timestamp`, `device_id`, `metric_name`) triple. -/
def UniqueTriples (store : List MetricSample) : Prop :=
  (store.map sampleKey).Nodup

instance : DecidablePred UniqueTriples := fun store =>
  inferInstanceAs (Decidable ((store.map sampleKey).Nodup))

/-- Modelled from the spec: the conjunction of the optional `query_samples`
filters `device_id?`, `metric_name?`, `start_time?`, `end_time?`. -/
def matchesQuery (dev met : Option String) (st en : Option Int)
    (s : MetricSample) : Bool :=
  dev.all (fun d => s.device_id == d) &&
  met.all (fun m => s.metric_name == m) &&
  st.all (fun t => decide (t ≤ s.timestamp)) &&
  en.all (fun t => decide (s.timestamp ≤ t))

/-- Modelled from the spec: `query_samples(device_id?, metric_name?,
start_time?, end_time?, limit?)` returns the samples satisfying the
conjunction of the given filters, "ordered by `timestamp` descending;
`limit` bounds result count". -/
def query_samples (store : List MetricSample) (dev met : Option String)
    (st en : Option Int) (lim : Option Nat) : List MetricSample :=
  let sorted := (store.filter (matchesQuery dev met st en)).insertionSort
    (fun a b => b.timestamp ≤ a.timestamp)
  match lim with
  | some n => sorted.take n
  | none => sorted

end NetStore

section NetStoreTheorems

open NetStore

/-- `insert_sample` only ever returns the unchanged store (on conflict) or the
store with the new sample appended (on success), so key-uniqueness is
preserved either way. -/
theorem NetStore.insert_sample_preserves_unique (store : List MetricSample)
    (s : MetricSample) (hinv : UniqueTriples store) :
    UniqueTriples (insert_sample store s).1 := by
  unfold insert_sample
  by_cases h : store.any (fun t => sampleKey t == sampleKey s)
  · simpa [h] using hinv
  · simp only [h, Bool.false_eq_true, if_false]
    simp only [List.any_eq_true, beq_iff_eq, not_exists, not_and] at h
    simp only [UniqueTriples, List.map_append, List.nodup_append, List.map_cons,
      List.map_nil, List.nodup_cons, List.nodup_nil, List.not_mem_nil]
    refine ⟨hinv, by simp, ?_⟩
    intro k hk
    simp only [List.mem_map] at hk
    obtain ⟨t, ht, rfl⟩ := hk
    simp only [List.mem_singleton]
    intro hcontra
    exact h t ht hcontra

/-- Every store reachable from the empty store through `insert_sample`
satisfies the uniqueness invariant. -/
theorem NetStore.insertAll_unique (ss : List MetricSample) :
    UniqueTriples (insertAll ss) := by
  suffices h : ∀ st, UniqueTriples st →
      UniqueTriples (ss.foldl (fun st s => (insert_sample st s).1) st) by
    exact h [] (by simp [UniqueTriples])
  induction ss with
  | nil => intro st hst; simpa using hst
  | cons s ss ih =>
    intro st hst
    exact ih _ (insert_sample_preserves_unique st s hst)

end NetStoreTheorems

namespace NetStore

/-- A row of the `predictions` table (src/unnamed/part_000): `created_at`,
`device_id`, `metric_name`, `predicted_timestamp`, `predicted_value`,
nullable `confidence_interval_lower`/`confidence_interval_upper`, nullable
`model_version`.  The surrogate `id SERIAL` column is omitted. -/
structure Prediction where
  created_at : Int
  device_id : String
  metric_name : String
  predicted_timestamp : Int
  predicted_value : Rat
  confidence_interval_lower : Option Rat
  confidence_interval_upper : Option Rat
  model_version : Option String
deriving DecidableEq, Repr

/-- Modelled from the spec: `insert_prediction(prediction)` persists the
prediction; the `predictions` table carries no uniqueness or check
constraint, so every insert succeeds. -/
def insert_prediction (store : List Prediction) (p : Prediction) :
    List Prediction :=
  store ++ [p]

/-- Milliseconds per hour, for the `horizon_hours` window. -/
def msPerHour : Int := 3600000

/-- Modelled from the spec: when `horizon_hours` is given, `query_predictions`
restricts "to predictions whose `predicted_timestamp` falls within that many
hours of now", i.e. to `now ≤ predicted_timestamp ≤ now + horizon_hours`. -/
def inHorizon (now : Int) (hor : Option Nat) (p : Prediction) : Bool :=
  match hor with
  | none => true
  | some h =>
      decide (now ≤ p.predicted_timestamp) &&
      decide (p.predicted_timestamp ≤ now + (h : Int) * msPerHour)

/-- Modelled from the spec: `query_predictions(device_id, metric_name,
horizon_hours?)` returns the matching predictions "ordered by
`predicted_timestamp` ascending". -/
def query_predictions (store : List Prediction) (d m : String) (now : Int)
    (hor : Option Nat) : List Prediction :=
  (store.filter fun p =>
      p.device_id == d && p.metric_name == m && inHorizon now hor p).insertionSort
    (fun a b => a.predicted_timestamp ≤ b.predicted_timestamp)

/-- The confidence-interval bound of the spec's data model:
`confidence_interval_lower ≤ predicted_value ≤ confidence_interval_upper`
whenever both bounds are present. -/
def ciWithinBounds (p : Prediction) : Bool :=
  match p.confidence_interval_lower, p.confidence_interval_upper with
  | some lo, some hi =>
      decide (lo ≤ p.predicted_value) && decide (p.predicted_value ≤ hi)
  | _, _ => true

end NetStore

/-- The filter conjunction of `query_samples`, read back as propositions about
each optional filter. -/
theorem NetStore.matchesQuery_spec (dev met : Option String) (st en : Option Int)
    (s : NetStore.MetricSample) (h : NetStore.matchesQuery dev met st en s = true) :
    (∀ d, dev = some d → s.device_id = d) ∧
    (∀ m, met = some m → s.metric_name = m) ∧
    (∀ t, st = some t → t ≤ s.timestamp) ∧
    (∀ t, en = some t → s.timestamp ≤ t) := by
  unfold NetStore.matchesQuery at h
  simp only [Bool.and_eq_true] at h
  obtain ⟨⟨⟨h1, h2⟩, h3⟩, h4⟩ := h
  refine ⟨?_, ?_, ?_, ?_⟩ <;> intro x hx <;> subst hx <;> simp_all [Option.all]

/-- Concrete sample: router-001 bandwidth at t = 0. -/
def sampleA : NetStore.MetricSample :=
  { timestamp := 0, device_id := "router-001", metric_name := "bandwidth",
    value := 80, unit := some "Mbps" }

/-- Concrete sample colliding with `sampleA` on the unique triple but carrying
a different value. -/
def sampleAdup : NetStore.MetricSample :=
  { timestamp := 0, device_id := "router-001", metric_name := "bandwidth",
    value := 99, unit := some "Mbps" }

/-- Concrete sample: router-001 bandwidth one minute later. -/
def sampleB : NetStore.MetricSample :=
  { timestamp := 60000, device_id := "router-001", metric_name := "bandwidth",
    value := 85, unit := some "Mbps" }

/-- C1: every store reachable through `insert_sample` has at most one sample
per (timestamp, device_id, metric_name) triple; inserting a sample whose
triple is already present fails with a conflict and leaves the store — in
particular the previously stored value — unchanged, while inserting a sample
with a fresh triple succeeds and persists it. -/
theorem C1_sample_uniqueness (store : List NetStore.MetricSample)
    (s : NetStore.MetricSample) (ss : List NetStore.MetricSample)
    (hinv : NetStore.UniqueTriples store) :
    NetStore.UniqueTriples (NetStore.insertAll ss) ∧
    (NetStore.sampleKey s ∈ store.map NetStore.sampleKey →
      NetStore.insert_sample store s = (store, .conflictError)) ∧
    (NetStore.sampleKey s ∉ store.map NetStore.sampleKey →
      NetStore.insert_sample store s = (store ++ [s], .ok) ∧
      NetStore.UniqueTriples (store ++ [s])) := by
  refine ⟨NetStore.insertAll_unique ss, ?_, ?_⟩
  · intro hmem
    have hany : store.any (fun t => NetStore.sampleKey t == NetStore.sampleKey s) = true := by
      simp only [List.any_eq_true, beq_iff_eq]
      simpa only [List.mem_map] using hmem
    simp [NetStore.insert_sample, hany]
  · intro hmem
    have hany : store.any (fun t => NetStore.sampleKey t == NetStore.sampleKey s) = false := by
      simp only [List.any_eq_false, beq_iff_eq]
      intro t ht hcontra
      exact hmem (List.mem_map.2 ⟨t, ht, hcontra⟩)
    have heq : NetStore.insert_sample store s = (store ++ [s], .ok) := by
      simp [NetStore.insert_sample, hany]
    refine ⟨heq, ?_⟩
    have hpres := NetStore.insert_sample_preserves_unique store s hinv
    rwa [heq] at hpres

/-- C1 witness: a colliding insert into the one-sample store is rejected and
changes nothing, a fresh insert is appended. -/
theorem C1_sample_uniqueness_witness :
    NetStore.insert_sample [sampleA] sampleAdup = ([sampleA], .conflictError) ∧
    NetStore.insert_sample [sampleA] sampleB = ([sampleA, sampleB], .ok) := by
  constructor
  · exact (C1_sample_uniqueness [sampleA] sampleAdup [] (by decide)).2.1 (by decide)
  · exact ((C1_sample_uniqueness [sampleA] sampleB [] (by decide)).2.2 (by decide)).1

/-- C4: `query_samples` returns only stored samples satisfying the conjunction
of the given optional filters, ordered by timestamp descending, and with at
most `limit` elements when a limit is given. -/
theorem C4_query_samples_contract (store : List NetStore.MetricSample)
    (dev met : Option String) (st en : Option Int) (lim : Option Nat) :
    (∀ s ∈ NetStore.query_samples store dev met st en lim,
      s ∈ store ∧
      (∀ d, dev = some d → s.device_id = d) ∧
      (∀ m, met = some m → s.metric_name = m) ∧
      (∀ t, st = some t → t ≤ s.timestamp) ∧
      (∀ t, en = some t → s.timestamp ≤ t)) ∧
    (NetStore.query_samples store dev met st en lim).Pairwise
      (fun a b => b.timestamp ≤ a.timestamp) ∧
    (∀ n, lim = some n →
      (NetStore.query_samples store dev met st en lim).length ≤ n) := by
  haveI : IsTotal NetStore.MetricSample (fun a b => b.timestamp ≤ a.timestamp) :=
    ⟨fun a b => le_total b.timestamp a.timestamp⟩
  haveI : IsTrans NetStore.MetricSample (fun a b => b.timestamp ≤ a.timestamp) :=
    ⟨fun _ _ _ hab hbc => le_trans hbc hab⟩
  have hsub : ∀ s ∈ NetStore.query_samples store dev met st en lim,
      s ∈ store.filter (NetStore.matchesQuery dev met st en) := by
    intro s hs
    unfold NetStore.query_samples at hs
    cases lim with
    | some n =>
      simp only at hs
      exact (List.mem_insertionSort _).1 (List.mem_of_mem_take hs)
    | none =>
      simp only at hs
      exact (List.mem_insertionSort _).1 hs
  have hsorted : ((store.filter (NetStore.matchesQuery dev met st en)).insertionSort
      (fun a b => b.timestamp ≤ a.timestamp)).Pairwise
      (fun a b => b.timestamp ≤ a.timestamp) :=
    List.sorted_insertionSort _ _
  refine ⟨?_, ?_, ?_⟩
  · intro s hs
    have hf := List.mem_filter.1 (hsub s hs)
    exact ⟨hf.1, NetStore.matchesQuery_spec dev met st en s hf.2⟩
  · unfold NetStore.query_samples
    cases lim with
    | some n =>
      simp only
      exact hsorted.sublist (List.take_sublist n _)
    | none => simpa only using hsorted
  · intro n hn
    subst hn
    unfold NetStore.query_samples
    simp only [List.length_take]
    exact min_le_left _ _

/-- C4 witness: querying the two-sample store for router-001 with limit 10
returns samples for that device, at most 10 of them. -/
theorem C4_query_samples_contract_witness :
    sampleB.device_id = "router-001" ∧
    (NetStore.query_samples [sampleA, sampleB] (some "router-001") none none none
      (some 10)).length ≤ 10 := by
  have h := C4_query_samples_contract [sampleA, sampleB] (some "router-001")
    none none none (some 10)
  exact ⟨(h.1 sampleB (by decide)).2.1 "router-001" rfl, h.2.2 10 rfl⟩

/-- Concrete prediction: one hour ahead of `now = 0`, bounds around the value. -/
def predInWindow : NetStore.Prediction :=
  { created_at := 0, device_id := "router-001", metric_name := "bandwidth",
    predicted_timestamp := 3600000, predicted_value := 90,
    confidence_interval_lower := some 80, confidence_interval_upper := some 100,
    model_version := some "v1" }

/-- Concrete prediction: one hundred hours ahead, outside a 4-hour horizon. -/
def predOutOfWindow : NetStore.Prediction :=
  { created_at := 0, device_id := "router-001", metric_name := "bandwidth",
    predicted_timestamp := 360000000, predicted_value := 70,
    confidence_interval_lower := none, confidence_interval_upper := none,
    model_version := some "v1" }

/-- C5: after `insert_prediction`, querying its (device_id, metric_name) with
a horizon that brackets `predicted_timestamp` returns the prediction, a
horizon that excludes it omits it, and every `query_predictions` result is
ordered by `predicted_timestamp` ascending. -/
theorem C5_prediction_roundtrip (store : List NetStore.Prediction)
    (p : NetStore.Prediction) (d m : String) (now : Int) (h : Nat) :
    (p.device_id = d → p.metric_name = m →
      now ≤ p.predicted_timestamp →
      p.predicted_timestamp ≤ now + (h : Int) * NetStore.msPerHour →
      p ∈ NetStore.query_predictions (NetStore.insert_prediction store p) d m now
        (some h)) ∧
    (p.predicted_timestamp < now ∨
        now + (h : Int) * NetStore.msPerHour < p.predicted_timestamp →
      p ∉ NetStore.query_predictions (NetStore.insert_prediction store p) d m now
        (some h)) ∧
    (∀ hor, (NetStore.query_predictions store d m now hor).Pairwise
      (fun a b => a.predicted_timestamp ≤ b.predicted_timestamp)) := by
  haveI : IsTotal NetStore.Prediction
      (fun a b => a.predicted_timestamp ≤ b.predicted_timestamp) :=
    ⟨fun a b => le_total a.predicted_timestamp b.predicted_timestamp⟩
  haveI : IsTrans NetStore.Prediction
      (fun a b => a.predicted_timestamp ≤ b.predicted_timestamp) :=
    ⟨fun _ _ _ hab hbc => le_trans hab hbc⟩
  refine ⟨?_, ?_, ?_⟩
  · intro hd hm hlo hhi
    unfold NetStore.query_predictions
    rw [List.mem_insertionSort]
    refine List.mem_filter.2 ⟨?_, ?_⟩
    · exact List.mem_append.2 (Or.inr (List.mem_singleton.2 rfl))
    · simp [NetStore.inHorizon, Option.all, hd, hm, hlo, hhi]
  · intro hout hmem
    unfold NetStore.query_predictions at hmem
    rw [List.mem_insertionSort] at hmem
    have hcond := (List.mem_filter.1 hmem).2
    simp only [NetStore.inHorizon, Bool.and_eq_true, decide_eq_true_eq] at hcond
    rcases hout with hout | hout
    · exact absurd hcond.2.1 (not_le.2 hout)
    · exact absurd hcond.2.2 (not_le.2 hout)
  · intro hor
    exact List.sorted_insertionSort _ _

/-- C5 witness: a prediction one hour out is returned by a 4-hour horizon
query after insertion, a prediction one hundred hours out is omitted. -/
theorem C5_prediction_roundtrip_witness :
    predInWindow ∈ NetStore.query_predictions
      (NetStore.insert_prediction [] predInWindow) "router-001" "bandwidth" 0
      (some 4) ∧
    predOutOfWindow ∉ NetStore.query_predictions
      (NetStore.insert_prediction [] predOutOfWindow) "router-001" "bandwidth" 0
      (some 4) := by
  constructor
  · exact (C5_prediction_roundtrip [] predInWindow "router-001" "bandwidth" 0 4).1
      rfl rfl (by decide) (by decide)
  · exact (C5_prediction_roundtrip [] predOutOfWindow "router-001" "bandwidth" 0 4).2.1
      (Or.inr (by decide))

/-- Concrete prediction violating the confidence-interval bound: both bounds
present but `confidence_interval_lower > predicted_value`. -/
def predBadBounds : NetStore.Prediction :=
  { created_at := 0, device_id := "router-001", metric_name := "bandwidth",
    predicted_timestamp := 3600000, predicted_value := 5,
    confidence_interval_lower := some 10, confidence_interval_upper := some 20,
    model_version := some "v1" }

/-- C8 counterexample: neither the `predictions` table nor `insert_prediction`
enforces the confidence-interval bound, so a store operation starting from a
store satisfying the invariant (the empty store) can produce a stored
prediction with both bounds present and
`confidence_interval_lower > predicted_value`. -/
theorem C8_counterexample :
    ∃ p ∈ NetStore.insert_prediction [] predBadBounds,
      NetStore.ciWithinBounds p = false := by
  exact ⟨predBadBounds, by decide, by decide⟩

/-- C8 amended: the bound is an assumption on inserted predictions, not an
enforced constraint; if every prediction in the store and the inserted
prediction satisfy it, then every stored prediction after `insert_prediction`
satisfies it, and `query_predictions` returns only predictions satisfying it. -/
theorem C8_ci_bounds_conditional (store : List NetStore.Prediction)
    (p : NetStore.Prediction)
    (hstore : ∀ q ∈ store, NetStore.ciWithinBounds q = true)
    (hp : NetStore.ciWithinBounds p = true) :
    (∀ q ∈ NetStore.insert_prediction store p, NetStore.ciWithinBounds q = true) ∧
    (∀ d m now hor, ∀ q ∈ NetStore.query_predictions store d m now hor,
      NetStore.ciWithinBounds q = true) := by
  constructor
  · intro q hq
    rcases List.mem_append.1 hq with hq | hq
    · exact hstore q hq
    · rw [List.mem_singleton.1 hq]; exact hp
  · intro d m now hor q hq
    unfold NetStore.query_predictions at hq
    rw [List.mem_insertionSort] at hq
    exact hstore q (List.mem_filter.1 hq).1

/-- C8 witness: inserting an in-bounds prediction into a one-element in-bounds
store leaves both stored predictions in bounds. -/
theorem C8_ci_bounds_conditional_witness :
    NetStore.ciWithinBounds predInWindow = true ∧
    NetStore.ciWithinBounds predOutOfWindow = true := by
  refine ⟨?_, ?_⟩
  · exact (C8_ci_bounds_conditional [predInWindow] predOutOfWindow
      (by decide) (by decide)).1 predInWindow (by decide)
  · exact (C8_ci_bounds_conditional [predInWindow] predOutOfWindow
      (by decide) (by decide)).1 predOutOfWindow (by decide)

namespace NetStore

/-- Maximum of a list of timestamps (the `max(timestamp)` aggregate); only
ever applied to the non-empty per-device sample lists. -/
def listMax : List Int → Int
  | [] => 0
  | [t] => t
  | t :: ts => max t (listMax ts)

/-- The stored samples of one device. -/
def deviceSamples (store : List MetricSample) (d : String) : List MetricSample :=
  store.filter (fun s => s.device_id == d)

/-- The derived `DeviceStatus` fields computed from the sample table:
`last_seen` and `metrics_count` per device (the spec's `list_devices`
contract; the decorative fields of the frontend `DeviceStatus` interface play
no role here). -/
structure DeviceRow where
  device_id : String
  last_seen : Int
  metrics_count : Nat
deriving DecidableEq, Repr

/-- Modelled from the spec: `list_devices()` returns "one entry per distinct
`device_id` seen in samples, with `last_seen` = max `timestamp` for that
device and `metrics_count` = total sample count for that device". -/
def list_devices (store : List MetricSample) : List DeviceRow :=
  ((store.map (fun s => s.device_id)).dedup).map fun d =>
    { device_id := d
      last_seen := listMax ((deviceSamples store d).map (fun s => s.timestamp))
      metrics_count := (deviceSamples store d).length }

end NetStore

/-- `listMax` of a non-empty list is one of its elements. -/
theorem NetStore.listMax_mem : ∀ l : List Int, l ≠ [] → NetStore.listMax l ∈ l
  | [], h => absurd rfl h
  | [t], _ => by simp [NetStore.listMax]
  | t :: t' :: ts, _ => by
    rcases max_choice t (NetStore.listMax (t' :: ts)) with h | h
    · simp [NetStore.listMax, h]
    · have := NetStore.listMax_mem (t' :: ts) (by simp)
      simp only [NetStore.listMax, h]
      exact List.mem_cons_of_mem t this

/-- Every element of a list of timestamps is bounded by `listMax`. -/
theorem NetStore.le_listMax : ∀ l : List Int, ∀ x ∈ l, x ≤ NetStore.listMax l
  | [], x, hx => absurd hx (List.not_mem_nil x)
  | [t], x, hx => by
    simp only [List.mem_singleton] at hx
    simp [NetStore.listMax, hx]
  | t :: t' :: ts, x, hx => by
    rcases List.mem_cons.1 hx with rfl | hx
    · simp [NetStore.listMax]
    · have := NetStore.le_listMax (t' :: ts) x hx
      simp only [NetStore.listMax]
      exact le_trans this (le_max_right _ _)

/-- C6: `list_devices` has exactly one entry per distinct device_id occurring
in the stored samples, and for each entry `last_seen` is the maximum sample
timestamp of that device (attained by one of its samples) and `metrics_count`
is the exact number of that device's samples. -/
theorem C6_list_devices_contract (store : List NetStore.MetricSample) :
    ((NetStore.list_devices store).map (fun e => e.device_id)).Nodup ∧
    (∀ d, d ∈ (NetStore.list_devices store).map (fun e => e.device_id) ↔
      d ∈ store.map (fun s => s.device_id)) ∧
    (∀ e ∈ NetStore.list_devices store,
      e.metrics_count = (NetStore.deviceSamples store e.device_id).length ∧
      (∃ s ∈ NetStore.deviceSamples store e.device_id,
        s.timestamp = e.last_seen) ∧
      (∀ s ∈ NetStore.deviceSamples store e.device_id,
        s.timestamp ≤ e.last_seen)) := by
  have hkeys : (NetStore.list_devices store).map (fun e => e.device_id) =
      (store.map (fun s => s.device_id)).dedup := by
    unfold NetStore.list_devices
    rw [List.map_map]
    exact List.map_id _
  refine ⟨?_, ?_, ?_⟩
  · rw [hkeys]; exact List.nodup_dedup _
  · intro d; rw [hkeys]; exact List.mem_dedup
  · intro e he
    unfold NetStore.list_devices at he
    rw [List.mem_map] at he
    obtain ⟨d, hd, rfl⟩ := he
    refine ⟨rfl, ?_, ?_⟩
    · have hdev : d ∈ store.map (fun s => s.device_id) := List.mem_dedup.1 hd
      rw [List.mem_map] at hdev
      obtain ⟨s0, hs0, hs0d⟩ := hdev
      have hne : NetStore.deviceSamples store d ≠ [] := by
        intro hnil
        have : s0 ∈ NetStore.deviceSamples store d :=
          List.mem_filter.2 ⟨hs0, by simp [hs0d]⟩
        rw [hnil] at this
        exact List.not_mem_nil s0 this
      have hmapne : (NetStore.deviceSamples store d).map
          (fun s => s.timestamp) ≠ [] := by
        simpa using hne
      have hmem := NetStore.listMax_mem _ hmapne
      rw [List.mem_map] at hmem
      obtain ⟨s, hs, hts⟩ := hmem
      exact ⟨s, hs, hts⟩
    · intro s hs
      exact NetStore.le_listMax _ _ (List.mem_map.2 ⟨s, hs, rfl⟩)

/-- C6 witness: on the two-sample store, the single device entry counts both
samples and reports the later timestamp as last_seen. -/
theorem C6_list_devices_contract_witness :
    ("router-001" ∈ (NetStore.list_devices [sampleA, sampleB]).map
      (fun e => e.device_id)) ∧
    ∀ e ∈ NetStore.list_devices [sampleA, sampleB],
      e.metrics_count = 2 ∧ e.last_seen = 60000 := by
  have h := C6_list_devices_contract [sampleA, sampleB]
  refine ⟨(h.2.1 "router-001").2 (by decide), ?_⟩
  intro e he
  have hc := h.2.2 e he
  have hd : e.device_id = "router-001" := by
    have hm : e.device_id ∈ (NetStore.list_devices [sampleA, sampleB]).map
        (fun e => e.device_id) := List.mem_map.2 ⟨e, he, rfl⟩
    have := (h.2.1 e.device_id).1 hm
    simp only [List.map_cons, List.map_nil, List.mem_cons,
      List.not_mem_nil] at this
    rcases this with hx | hx | hx
    · exact hx
    · exact hx
    · exact absurd hx (by simp)
  constructor
  · rw [hc.1, hd]; decide
  · obtain ⟨s, hs, hts⟩ := hc.2.1
    have hb := hc.2.2
    rw [hd] at hs hb
    have hsA : s = sampleA ∨ s = sampleB := by
      have := (List.mem_filter.1 hs).1
      simpa using this
    have hAle := hb sampleA (by decide)
    have hBle := hb sampleB (by decide)
    rcases hsA with rfl | rfl
    · have h0 : sampleA.timestamp = (0 : Int) := rfl
      have h6 : sampleB.timestamp = (60000 : Int) := rfl
      omega
    · have h6 : sampleB.timestamp = (60000 : Int) := rfl
      omega

namespace ApiService

/-- The `DeviceStatus` interface of src/frontend/src/services/api.ts.  The
`status` union of string literals is kept as the underlying string. -/
structure DeviceStatus where
  device_id : String
  device_type : Option String
  status : String
  ip_address : Option String
  location : Option String
  last_seen : Option Int
deriving DecidableEq, Repr

/-- The `NetworkMetric` interface of src/frontend/src/services/api.ts. -/
structure NetworkMetric where
  id : Nat
  device_id : String
  metric_name : String
  value : Rat
  unit : String
  timestamp : Int
deriving DecidableEq, Repr

/-- The `Prediction` interface of src/frontend/src/services/api.ts. -/
structure ApiPrediction where
  id : Nat
  device_id : String
  metric_name : String
  predicted_value : Rat
  prediction_timestamp : Int
  confidence : Rat
deriving DecidableEq, Repr

/-- The `MetricsQuery` interface of src/frontend/src/services/api.ts. -/
structure MetricsQuery where
  device_id : Option String
  metric_name : Option String
  limit : Option Nat
  start_time : Option Int
  end_time : Option Int
deriving DecidableEq, Repr

/-- The three hard-coded devices returned by the `getDevices` catch handler
("Return mock data for development"); `now` stands for the
`new Date().toISOString()` evaluations. -/
def mockDevices (now : Int) : List DeviceStatus :=
  [ { device_id := "router-001", device_type := some "Router",
      status := "online", ip_address := some "192.168.1.1",
      location := some "Main Office", last_seen := some now },
    { device_id := "switch-002", device_type := some "Switch",
      status := "online", ip_address := some "192.168.1.2",
      location := some "Server Room", last_seen := some now },
    { device_id := "ap-003", device_type := some "Access Point",
      status := "warning", ip_address := some "192.168.1.3",
      location := some "Floor 2", last_seen := some now } ]

/-- The `metricTypes` array of `generateMockMetrics`. -/
def metricTypes : List String := ["bandwidth", "latency", "packet_loss", "cpu_usage"]

/-- The `unit` assigned per metric type by the `switch` in
`generateMockMetrics`. -/
def mockUnit : String → String
  | "bandwidth" => "Mbps"
  | "latency" => "ms"
  | "packet_loss" => "%"
  | "cpu_usage" => "%"
  | _ => "unit"

/-- `parseFloat(value.toFixed(2))`: rounding to two decimal places. -/
def round2 (q : Rat) : Rat := (⌊q * 100 + 1 / 2⌋ : Rat) / 100

/-- The value computed per metric type by the `switch` in
`generateMockMetrics`, with `r` standing for that iteration's
`Math.random()` draw. -/
def mockValue (metricType : String) (r : Rat) : Rat :=
  round2 <| match metricType with
  | "bandwidth" => r * 100 + 50
  | "latency" => r * 50 + 10
  | "packet_loss" => r * 5
  | "cpu_usage" => r * 80 + 10
  | _ => r * 100

/-- The `k`-th pushed mock metric of `generateMockMetrics`: the loops push in
order `k = 4 * i + j` with `i` the minute offset and `j` the index into
`metricTypes`, and set `id = metrics.length + 1 = k + 1` and
`timestamp = now - i * 60000`.  `rand k` stands for the `Math.random()` draw
of that push. -/
def mockSampleAt (deviceId : String) (now : Int) (rand : Nat → Rat)
    (k : Nat) : NetworkMetric :=
  let name := metricTypes.getD (k % 4) ""
  { id := k + 1
    device_id := deviceId
    metric_name := name
    value := mockValue name (rand k)
    unit := mockUnit name
    timestamp := now - (k / 4 : Nat) * 60000 }

/-- `generateMockMetrics` of src/frontend/src/services/api.ts: 50 minute
offsets times 4 metric types, then
`sort((a, b) => b.timestamp - a.timestamp)` (descending). -/
def generateMockMetrics (deviceId : String) (now : Int) (rand : Nat → Rat) :
    List NetworkMetric :=
  ((List.range 200).map (mockSampleAt deviceId now rand)).insertionSort
    (fun a b => b.timestamp ≤ a.timestamp)

/-- The identifying triple of a mock metric, matching the store's
`UNIQUE(timestamp, device_id, metric_name)` columns. -/
def metricKey (s : NetworkMetric) : Int × String × String :=
  (s.timestamp, s.device_id, s.metric_name)

/-- `query.device_id || 'router-001'`: JavaScript `||` treats the empty
string as falsy, so both a missing and an empty `device_id` fall back. -/
def orDefaultNonEmpty (o : Option String) (dflt : String) : String :=
  match o with
  | some d => if d = "" then dflt else d
  | none => dflt

/-- Result of the `fetch`-based request: either a parsed response value or a
transport/HTTP failure (the thrown error caught by the call sites). -/
inductive FetchOutcome (α : Type) where
  | ok (value : α)
  | failure
deriving DecidableEq, Repr

/-- `ApiService.getDevices`: returns the response on success and the
hard-coded mock device list from its catch handler on any failure. -/
def getDevicesResult (now : Int) :
    FetchOutcome (List DeviceStatus) → List DeviceStatus
  | .ok v => v
  | .failure => mockDevices now

/-- `ApiService.getMetrics`: returns the response on success and
`generateMockMetrics(query.device_id || 'router-001')` from its catch
handler on any failure. -/
def getMetricsResult (q : MetricsQuery) (now : Int) (rand : Nat → Rat) :
    FetchOutcome (List NetworkMetric) → List NetworkMetric
  | .ok v => v
  | .failure => generateMockMetrics (orDefaultNonEmpty q.device_id "router-001") now rand

/-- `ApiService.getPredictions`: returns the response on success and the
empty list from its catch handler on any failure. -/
def getPredictionsResult :
    FetchOutcome (List ApiPrediction) → List ApiPrediction
  | .ok v => v
  | .failure => []

end ApiService

/-- The mock generator always produces 200 metrics (50 minute offsets times 4
metric types). -/
theorem ApiService.generateMockMetrics_length (d : String) (now : Int)
    (rand : Nat → Rat) :
    (ApiService.generateMockMetrics d now rand).length = 200 := by
  unfold ApiService.generateMockMetrics
  rw [List.length_insertionSort, List.length_map, List.length_range]

/-- C3 counterexample: when the devices fetch fails, `getDevices` resolves to
the three-element hard-coded mock device list, not to an empty result. -/
theorem C3_counterexample :
    ApiService.getDevicesResult 0 .failure ≠ [] ∧
    (ApiService.getDevicesResult 0 .failure).length = 3 := by
  decide

/-- C3 amended: every transport failure of `getDevices`, `getMetrics` and
`getPredictions` is caught at the call site and the operation resolves to a
fallback value — but only `getPredictions` falls back to an empty result;
`getDevices` falls back to the three hard-coded mock devices and
`getMetrics` to a 200-element mock metric list. -/
theorem C3_fetch_failures_caught (now : Int) (rand : Nat → Rat)
    (q : ApiService.MetricsQuery) :
    ApiService.getDevicesResult now .failure = ApiService.mockDevices now ∧
    (ApiService.getDevicesResult now .failure).length = 3 ∧
    ApiService.getMetricsResult q now rand .failure =
      ApiService.generateMockMetrics
        (ApiService.orDefaultNonEmpty q.device_id "router-001") now rand ∧
    (ApiService.getMetricsResult q now rand .failure).length = 200 ∧
    ApiService.getPredictionsResult .failure = [] := by
  exact ⟨rfl, rfl, rfl, ApiService.generateMockMetrics_length _ _ _, rfl⟩

/-- The four entries of `metricTypes` are pairwise distinct, so the index into
the array is recoverable from the metric name. -/
theorem ApiService.metricTypes_getD_inj (j j' : Nat) (hj : j < 4) (hj' : j' < 4)
    (h : ApiService.metricTypes.getD j "" = ApiService.metricTypes.getD j' "") :
    j = j' := by
  have hfin : ∀ a b : Fin 4,
      ApiService.metricTypes.getD a.val "" = ApiService.metricTypes.getD b.val "" →
        a = b := by decide
  exact congrArg Fin.val (hfin ⟨j, hj⟩ ⟨j', hj'⟩ h)

/-- Distinct push indices of the mock generator yield distinct
(timestamp, device_id, metric_name) triples: the minute offset is recoverable
from the timestamp and the metric-type index from the name. -/
theorem ApiService.mockSampleAt_key_inj (d : String) (now : Int)
    (rand : Nat → Rat) (k k' : Nat) (_hk : k < 200) (_hk' : k' < 200)
    (h : ApiService.metricKey (ApiService.mockSampleAt d now rand k) =
      ApiService.metricKey (ApiService.mockSampleAt d now rand k')) : k = k' := by
  simp only [ApiService.metricKey, ApiService.mockSampleAt, Prod.mk.injEq] at h
  obtain ⟨hts, -, hname⟩ := h
  have hmod : k % 4 = k' % 4 :=
    ApiService.metricTypes_getD_inj _ _ (Nat.mod_lt _ (by norm_num))
      (Nat.mod_lt _ (by norm_num)) hname
  omega

/-- The raw (unsorted) mock generation has pairwise-distinct key triples. -/
theorem ApiService.rawMock_nodup (d : String) (now : Int) (rand : Nat → Rat) :
    (((List.range 200).map (ApiService.mockSampleAt d now rand)).map
      ApiService.metricKey).Nodup := by
  rw [List.map_map]
  refine List.Nodup.map_on ?_ (List.nodup_range 200)
  intro x hx y hy hxy
  exact ApiService.mockSampleAt_key_inj d now rand x y (List.mem_range.1 hx)
    (List.mem_range.1 hy) hxy

/-- C10: for every device id, `generateMockMetrics` returns exactly 200
samples — a permutation of the 50-minute-offset × 4-metric-type generation —
all carrying that device id, with pairwise-distinct
(timestamp, device_id, metric_name) triples, sorted by timestamp
descending. -/
theorem C10_generateMockMetrics_contract (deviceId : String) (now : Int)
    (rand : Nat → Rat) :
    (ApiService.generateMockMetrics deviceId now rand).length = 200 ∧
    (ApiService.generateMockMetrics deviceId now rand).map (fun s => s.device_id) =
      List.replicate 200 deviceId ∧
    ((ApiService.generateMockMetrics deviceId now rand).map
      ApiService.metricKey).Nodup ∧
    (ApiService.generateMockMetrics deviceId now rand).Pairwise
      (fun a b => b.timestamp ≤ a.timestamp) ∧
    (ApiService.generateMockMetrics deviceId now rand).Perm
      ((List.range 200).map (ApiService.mockSampleAt deviceId now rand)) := by
  haveI : IsTotal ApiService.NetworkMetric (fun a b => b.timestamp ≤ a.timestamp) :=
    ⟨fun a b => le_total b.timestamp a.timestamp⟩
  haveI : IsTrans ApiService.NetworkMetric (fun a b => b.timestamp ≤ a.timestamp) :=
    ⟨fun _ _ _ hab hbc => le_trans hbc hab⟩
  have hperm : (ApiService.generateMockMetrics deviceId now rand).Perm
      ((List.range 200).map (ApiService.mockSampleAt deviceId now rand)) :=
    List.perm_insertionSort _ _
  refine ⟨ApiService.generateMockMetrics_length _ _ _, ?_, ?_, ?_, hperm⟩
  · refine List.eq_replicate_iff.2 ⟨?_, ?_⟩
    · simp [ApiService.generateMockMetrics_length]
    · intro b hb
      rw [List.mem_map] at hb
      obtain ⟨s, hs, rfl⟩ := hb
      have := hperm.mem_iff.1 hs
      rw [List.mem_map] at this
      obtain ⟨k, -, rfl⟩ := this
      rfl
  · exact ((hperm.map ApiService.metricKey).nodup_iff).2
      (ApiService.rawMock_nodup deviceId now rand)
  · exact List.sorted_insertionSort _ _

namespace Dashboard

/-- The `MetricUpdate` interface of the WebSocket hook
(src/unnamed/part_003). -/
structure MetricUpdate where
  type : String
  device_id : String
  metric_name : String
  value : Rat
  timestamp : Int
deriving DecidableEq, Repr

/-- The dashboard effect that runs when WebSocket data arrives
(src/unnamed/part_001): `if (latestData.length > 0 && selectedDevice)
loadMetrics(selectedDevice)`.  Returns the device whose metrics window is
re-fetched, if any. -/
def refetchTarget (latestData : List MetricUpdate)
    (selectedDevice : Option String) : Option String :=
  match selectedDevice with
  | some d => if latestData.length > 0 then some d else none
  | none => none

/-- The query issued by `Dashboard.loadMetrics`:
`api.getMetrics({ device_id: deviceId, limit: 100 })`. -/
def loadMetricsQuery (deviceId : String) : ApiService.MetricsQuery :=
  { device_id := some deviceId, metric_name := none, limit := some 100,
    start_time := none, end_time := none }

/-- The prediction fetch issued at the end of `loadMetrics`: when
`metricsData.length > 0`, `loadPredictions(deviceId,
metricsData[0].metric_name)` which calls
`api.getPredictions(deviceId, metricName, 4)`; otherwise nothing. -/
def predictionFetch (deviceId : String) :
    List ApiService.NetworkMetric → Option (String × String × Nat)
  | [] => none
  | m :: _ => some (deviceId, m.metric_name, 4)

/-- One step of the `groupedMetrics` reduce: push the metric onto the entry
for its `metric_name`, creating the entry at the end if absent (JS object
keys keep insertion order, modelled as an association list). -/
def insertGrouped (acc : List (String × List ApiService.NetworkMetric))
    (m : ApiService.NetworkMetric) :
    List (String × List ApiService.NetworkMetric) :=
  match acc with
  | [] => [(m.metric_name, [m])]
  | (k, l) :: rest =>
    if k = m.metric_name then (k, l ++ [m]) :: rest
    else (k, l) :: insertGrouped rest m

/-- `groupedMetrics` of src/unnamed/part_001: `metrics.reduce(...)` grouping
by `metric_name`. -/
def groupedMetrics (metrics : List ApiService.NetworkMetric) :
    List (String × List ApiService.NetworkMetric) :=
  metrics.foldl insertGrouped []

/-- Association-list lookup on the grouped metrics (JS `acc[key]`). -/
def lookupGroup :
    List (String × List ApiService.NetworkMetric) → String →
      Option (List ApiService.NetworkMetric)
  | [], _ => none
  | (k, l) :: rest, key => if k = key then some l else lookupGroup rest key

end Dashboard

/-- Concrete WebSocket update for a device other than the selected one. -/
def wsOtherDevice : Dashboard.MetricUpdate :=
  { type := "metric_update", device_id := "switch-002",
    metric_name := "bandwidth", value := 42, timestamp := 0 }

/-- C2 counterexample: with router-001 selected, a non-empty update batch
whose only event is for switch-002 still triggers a re-fetch of router-001's
window — the component never compares the event's `device_id` with the
selected device. -/
theorem C2_counterexample :
    Dashboard.refetchTarget [wsOtherDevice] (some "router-001") =
      some "router-001" ∧
    ∀ u ∈ [wsOtherDevice], u.device_id ≠ "router-001" := by
  decide

/-- C2 corrected: while a device is selected, every non-empty update batch —
regardless of the events' device ids — triggers a full re-fetch of the
selected device's metrics window, and no re-fetch happens with an empty
batch or no selection. -/
theorem C2_refetch_on_any_update (latestData : List Dashboard.MetricUpdate)
    (d : String) :
    (Dashboard.refetchTarget latestData (some d) = some d ↔ latestData ≠ []) ∧
    Dashboard.refetchTarget latestData none = none := by
  refine ⟨⟨?_, ?_⟩, rfl⟩
  · intro h hnil
    subst hnil
    simp [Dashboard.refetchTarget] at h
  · intro h
    have hpos : latestData.length > 0 := List.length_pos.2 h
    simp [Dashboard.refetchTarget, hpos]

/-- `insertGrouped` appends the metric to its name's entry (creating the
entry when absent) and leaves every other key's entry unchanged, described
through `lookupGroup`. -/
theorem Dashboard.lookupGroup_insertGrouped
    (acc : List (String × List ApiService.NetworkMetric))
    (m : ApiService.NetworkMetric) (key : String) :
    Dashboard.lookupGroup (Dashboard.insertGrouped acc m) key =
      if key = m.metric_name then
        some ((Dashboard.lookupGroup acc key).getD [] ++ [m])
      else Dashboard.lookupGroup acc key := by
  induction acc with
  | nil =>
    by_cases h : key = m.metric_name
    · simp [Dashboard.insertGrouped, Dashboard.lookupGroup, h]
    · have h' : ¬m.metric_name = key := fun hx => h hx.symm
      simp [Dashboard.insertGrouped, Dashboard.lookupGroup, h, h']
  | cons e rest ih =>
    obtain ⟨k0, l0⟩ := e
    by_cases h0 : k0 = m.metric_name
    · by_cases hk : key = m.metric_name
      · have heq : k0 = key := by rw [h0, hk]
        simp [Dashboard.insertGrouped, Dashboard.lookupGroup, h0, hk, heq]
      · have hne : k0 ≠ key := fun hx => hk (hx ▸ h0)
        have hne2 : ¬m.metric_name = key := fun hx => hk hx.symm
        simp [Dashboard.insertGrouped, Dashboard.lookupGroup, h0, hk, hne, hne2]
    · by_cases h1 : k0 = key
      · have hk : key ≠ m.metric_name := fun hx => h0 (h1.symm ▸ hx)
        simp [Dashboard.insertGrouped, Dashboard.lookupGroup, h0, h1, hk]
      · simp [Dashboard.insertGrouped, Dashboard.lookupGroup, h0, h1, ih]

/-- Folding `insertGrouped` over a metric list: each key's entry collects, in
order, exactly the metrics bearing that name. -/
theorem Dashboard.lookupGroup_foldl (ms : List ApiService.NetworkMetric) :
    ∀ (acc : List (String × List ApiService.NetworkMetric)) (key : String),
      Dashboard.lookupGroup (ms.foldl Dashboard.insertGrouped acc) key =
        if Dashboard.lookupGroup acc key = none ∧
            ms.filter (fun m => m.metric_name == key) = [] then none
        else some ((Dashboard.lookupGroup acc key).getD [] ++
          ms.filter (fun m => m.metric_name == key)) := by
  induction ms with
  | nil =>
    intro acc key
    cases h : Dashboard.lookupGroup acc key with
    | none => simp [h]
    | some l => simp [h]
  | cons m ms ih =>
    intro acc key
    rw [List.foldl_cons, ih, Dashboard.lookupGroup_insertGrouped]
    by_cases hk : key = m.metric_name
    · have hf : (m :: ms).filter (fun x => x.metric_name == key) =
          m :: ms.filter (fun x => x.metric_name == key) := by
        simp [List.filter_cons, hk]
      rw [hf]
      simp [hk, List.append_assoc]
    · have hne : m.metric_name ≠ key := fun hx => hk hx.symm
      have hf : (m :: ms).filter (fun x => x.metric_name == key) =
          ms.filter (fun x => x.metric_name == key) := by
        simp [List.filter_cons, hne]
      rw [hf]
      simp [hk]

/-- Any key of `insertGrouped acc m` is a key of `acc` or the new metric's
name. -/
theorem Dashboard.keys_insertGrouped
    (acc : List (String × List ApiService.NetworkMetric))
    (m : ApiService.NetworkMetric) (k : String)
    (h : k ∈ (Dashboard.insertGrouped acc m).map Prod.fst) :
    k ∈ acc.map Prod.fst ∨ k = m.metric_name := by
  induction acc with
  | nil =>
    simp only [Dashboard.insertGrouped, List.map_cons, List.map_nil,
      List.mem_singleton] at h
    exact Or.inr h
  | cons e rest ih =>
    obtain ⟨k0, l0⟩ := e
    by_cases h0 : k0 = m.metric_name
    · simp only [Dashboard.insertGrouped, h0, if_true, List.map_cons] at h
      rcases List.mem_cons.1 h with rfl | h
      · exact Or.inl (by simp [h0])
      · exact Or.inl (List.mem_cons_of_mem _ h)
    · simp only [Dashboard.insertGrouped, h0, if_false, List.map_cons] at h
      rcases List.mem_cons.1 h with rfl | h
      · exact Or.inl (by simp)
      · rcases ih h with h | h
        · exact Or.inl (List.mem_cons_of_mem _ h)
        · exact Or.inr h

/-- `insertGrouped` preserves distinctness of the group keys. -/
theorem Dashboard.keys_nodup_insertGrouped
    (acc : List (String × List ApiService.NetworkMetric))
    (m : ApiService.NetworkMetric)
    (h : (acc.map Prod.fst).Nodup) :
    ((Dashboard.insertGrouped acc m).map Prod.fst).Nodup := by
  induction acc with
  | nil => simp [Dashboard.insertGrouped]
  | cons e rest ih =>
    obtain ⟨k0, l0⟩ := e
    simp only [List.map_cons, List.nodup_cons] at h
    by_cases h0 : k0 = m.metric_name
    · simp only [Dashboard.insertGrouped, h0, if_true, List.map_cons,
        List.nodup_cons]
      exact ⟨by simpa [h0] using h.1, h.2⟩
    · simp only [Dashboard.insertGrouped, h0, if_false, List.map_cons,
        List.nodup_cons]
      refine ⟨?_, ih h.2⟩
      intro hc
      rcases Dashboard.keys_insertGrouped rest m k0 hc with hc | hc
      · exact h.1 hc
      · exact h0 hc

/-- The keys of `groupedMetrics` are pairwise distinct. -/
theorem Dashboard.keys_nodup_grouped (ms : List ApiService.NetworkMetric) :
    ((Dashboard.groupedMetrics ms).map Prod.fst).Nodup := by
  suffices h : ∀ acc, (acc.map Prod.fst).Nodup →
      ((ms.foldl Dashboard.insertGrouped acc).map Prod.fst).Nodup by
    exact h [] (by simp)
  induction ms with
  | nil => intro acc hacc; simpa using hacc
  | cons m ms ih =>
    intro acc hacc
    exact ih _ (Dashboard.keys_nodup_insertGrouped acc m hacc)

/-- With distinct keys, association-list membership determines the lookup. -/
theorem Dashboard.lookupGroup_of_mem
    (acc : List (String × List ApiService.NetworkMetric))
    (hn : (acc.map Prod.fst).Nodup) (k : String)
    (l : List ApiService.NetworkMetric) (hm : (k, l) ∈ acc) :
    Dashboard.lookupGroup acc k = some l := by
  induction acc with
  | nil => exact absurd hm (List.not_mem_nil _)
  | cons e rest ih =>
    obtain ⟨k0, l0⟩ := e
    simp only [List.map_cons, List.nodup_cons] at hn
    rcases List.mem_cons.1 hm with he | hm
    · injection he with h1 h2
      subst h1
      subst h2
      simp [Dashboard.lookupGroup]
    · have hk : k0 ≠ k := by
        intro he2
        subst he2
        exact hn.1 (List.mem_map.2 ⟨_, hm, rfl⟩)
      simp only [Dashboard.lookupGroup, hk, if_false]
      exact ih hn.2 hm

/-- A successful lookup comes from an actual entry. -/
theorem Dashboard.mem_of_lookupGroup
    (acc : List (String × List ApiService.NetworkMetric)) (k : String)
    (l : List ApiService.NetworkMetric)
    (h : Dashboard.lookupGroup acc k = some l) : (k, l) ∈ acc := by
  induction acc with
  | nil => simp [Dashboard.lookupGroup] at h
  | cons e rest ih =>
    obtain ⟨k0, l0⟩ := e
    by_cases hk : k0 = k
    · subst hk
      simp only [Dashboard.lookupGroup, if_true] at h
      injection h with h
      subst h
      exact List.mem_cons_self _ _
    · simp only [Dashboard.lookupGroup, hk, if_false] at h
      exact List.mem_cons_of_mem _ (ih h)

/-- C7: selecting a device issues a metrics query for that device with limit
100 and no metric-name filter; the returned samples are grouped by
metric_name (each group holds exactly the samples bearing its name, every
returned sample lands in its name's group, group keys are distinct); when
the returned list is non-empty a prediction fetch for the first sample's
metric name with horizon 4 is issued, and when it is empty none is. -/
theorem C7_device_selection (deviceId : String)
    (metricsData : List ApiService.NetworkMetric) :
    Dashboard.loadMetricsQuery deviceId =
      { device_id := some deviceId, metric_name := none, limit := some 100,
        start_time := none, end_time := none } ∧
    (metricsData = [] →
      Dashboard.predictionFetch deviceId metricsData = none) ∧
    (∀ m rest, metricsData = m :: rest →
      Dashboard.predictionFetch deviceId metricsData =
        some (deviceId, m.metric_name, 4)) ∧
    (∀ k l, (k, l) ∈ Dashboard.groupedMetrics metricsData →
      l = metricsData.filter (fun m => m.metric_name == k)) ∧
    (∀ m ∈ metricsData, ∃ l,
      (m.metric_name, l) ∈ Dashboard.groupedMetrics metricsData) ∧
    ((Dashboard.groupedMetrics metricsData).map Prod.fst).Nodup := by
  refine ⟨rfl, ?_, ?_, ?_, ?_, Dashboard.keys_nodup_grouped metricsData⟩
  · intro h; subst h; rfl
  · intro m rest h; subst h; rfl
  · intro k l hm
    have hlook : Dashboard.lookupGroup (Dashboard.groupedMetrics metricsData) k =
        some l :=
      Dashboard.lookupGroup_of_mem _ (Dashboard.keys_nodup_grouped metricsData)
        k l hm
    rw [Dashboard.groupedMetrics] at hlook
    rw [Dashboard.lookupGroup_foldl metricsData [] k] at hlook
    by_cases hf : metricsData.filter (fun m => m.metric_name == k) = []
    · simp [Dashboard.lookupGroup, hf] at hlook
    · simp only [Dashboard.lookupGroup, hf, and_false, if_false,
        Option.getD_none, List.nil_append] at hlook
      exact (Option.some.injEq .. ▸ hlook).symm
  · intro m hm
    have hf : metricsData.filter
        (fun x => x.metric_name == m.metric_name) ≠ [] := by
      intro hnil
      have : m ∈ metricsData.filter (fun x => x.metric_name == m.metric_name) :=
        List.mem_filter.2 ⟨hm, by simp⟩
      rw [hnil] at this
      exact List.not_mem_nil m this
    have hlook : Dashboard.lookupGroup (Dashboard.groupedMetrics metricsData)
        m.metric_name = some (metricsData.filter
          (fun x => x.metric_name == m.metric_name)) := by
      rw [Dashboard.groupedMetrics,
        Dashboard.lookupGroup_foldl metricsData [] m.metric_name]
      simp [Dashboard.lookupGroup, hf]
    exact ⟨_, Dashboard.mem_of_lookupGroup _ _ _ hlook⟩

/-- Concrete bandwidth sample for the grouping witness. -/
def nmBandwidth : ApiService.NetworkMetric :=
  { id := 1, device_id := "router-001", metric_name := "bandwidth",
    value := 100, unit := "Mbps", timestamp := 60000 }

/-- Concrete latency sample for the grouping witness. -/
def nmLatency : ApiService.NetworkMetric :=
  { id := 2, device_id := "router-001", metric_name := "latency",
    value := 12, unit := "ms", timestamp := 0 }

/-- C7 witness: on a concrete two-sample fetch result the prediction fetch
targets the first sample's metric name with horizon 4, and the latency group
contains exactly the latency sample. -/
theorem C7_device_selection_witness :
    Dashboard.predictionFetch "router-001" [nmBandwidth, nmLatency] =
      some ("router-001", "bandwidth", 4) ∧
    ∀ l, ("latency", l) ∈ Dashboard.groupedMetrics [nmBandwidth, nmLatency] →
      l = [nmLatency] := by
  constructor
  · exact (C7_device_selection "router-001" [nmBandwidth, nmLatency]).2.2.1
      nmBandwidth [nmLatency] rfl
  · intro l hl
    have h := (C7_device_selection "router-001"
      [nmBandwidth, nmLatency]).2.2.2.1 "latency" l hl
    rw [h]
    decide

namespace AppMain

/-- The `NetworkMetrics` interface of src/frontend/src/App.tsx (the live
window entries).  The random values of each tick are irrelevant to the
window bound and are carried as opaque fields. -/
structure NetworkMetrics where
  timestamp : Int
  bandwidth : Rat
  latency : Rat
  packetLoss : Rat
  throughput : Rat
deriving DecidableEq, Repr

/-- One interval tick of src/frontend/src/App.tsx:
`setNetworkData(prev => [...prev.slice(-19), newMetric])`.
`prev.slice(-19)` keeps the last `min(prev.length, 19)` entries, i.e. drops
the first `prev.length - 19`. -/
def tick (prev : List NetworkMetrics) (m : NetworkMetrics) :
    List NetworkMetrics :=
  prev.drop (prev.length - 19) ++ [m]

/-- The window contents after any sequence of ticks, starting from the
initial `useState<NetworkMetrics[]>([])`. -/
def runTicks (updates : List NetworkMetrics) : List NetworkMetrics :=
  updates.foldl tick []

end AppMain

/-- C9: the App live window is bounded — every tick keeps at most the last 19
previous entries plus the new one, so after any update (from any previous
window, in particular along any run from the initial empty window) the
window holds at most 20 entries. -/
theorem C9_window_bounded (prev : List AppMain.NetworkMetrics)
    (m : AppMain.NetworkMetrics) (updates : List AppMain.NetworkMetrics) :
    (AppMain.tick prev m).length = min prev.length 19 + 1 ∧
    (AppMain.tick prev m).length ≤ 20 ∧
    (AppMain.runTicks updates).length ≤ 20 := by
  have hlen : ∀ (p : List AppMain.NetworkMetrics) (x : AppMain.NetworkMetrics),
      (AppMain.tick p x).length = min p.length 19 + 1 := by
    intro p x
    simp only [AppMain.tick, List.length_append, List.length_drop,
      List.length_cons, List.length_nil]
    omega
  refine ⟨hlen prev m, by rw [hlen]; omega, ?_⟩
  rcases List.eq_nil_or_concat updates with rfl | ⟨us, u, rfl⟩
  · simp [AppMain.runTicks]
  · unfold AppMain.runTicks
    rw [List.concat_eq_append, List.foldl_append, List.foldl_cons,
      List.foldl_nil, hlen]
    omega

/-- C2 witness: a concrete non-empty batch with a selected device triggers
the re-fetch of the selected device. -/
theorem C2_refetch_on_any_update_witness :
    Dashboard.refetchTarget [wsOtherDevice] (some "router-001") =
      some "router-001" := by
  exact (C2_refetch_on_any_update [wsOtherDevice] "router-001").1.2 (by decide)
